import Mathlib

/-!
Shallow embedding of the files_manager backend core
(repository: alx-files_manager).

Sources embedded here:
  - src/unnamed/part_001   : FileController.postUpload / getShow / getIndex
  - src/utils/auth.js      : getUserFromToken, DBClient.getUser / createUser /
                             getFile / createFile / getFiles
  - src/controllers/AuthController.js : getConnect / getDisconnect
  - src/utils/redis.js     : RedisClient.get / set (setex) / del

Modelling conventions:
  - MongoDB BSON values are typed.  The inductive `Val` distinguishes an
    ObjectId from a string and from a JSON number; BSON query matching is
    plain typed equality (the Node driver performs no coercion between a
    string and an ObjectId, so a query value of one type never matches a
    stored value of another type).
  - `insertOne`-assigned ObjectIds are drawn from the counter `St.nextId`.
    The client-visible rendering of the ObjectId `n` (its hex string in
    reality) is modelled as `toString n`; what matters is that the rendered
    string is a `Val.str`, never `Val.oid`.
  - Redis is an association list of `key -> (value, expiresAt)`; `setex`
    with duration `d` at time `t` stores expiry `t + d`, `get` at time `t`
    returns the value while `t < expiresAt`, `del` removes the key and
    reports whether a live key was removed.
  - JavaScript truthiness on request fields: an absent field is `none`;
    a string is falsy exactly when it is empty; `x || 0` / `x || false`
    fallbacks are modelled by the corresponding `Option` defaults.
  - `Buffer.from(data, 'base64')` is the (lenient) base64 decoder
    `base64Decode`, which ignores characters outside the alphabet.
    `.toString('utf-8')` is `utf8DecodeRepl` (WHATWG decoding with
    U+FFFD replacement), and `fs.writeFile` of the resulting JS string
    writes its UTF-8 encoding `utf8Encode`.  The blob store records the
    byte sequences written (`St.blobWrites`); the generated file path
    (`FOLDER_PATH/uuid`) is an opaque locator never read back by the code
    under scrutiny, and the `existsSync`/`mkdirSync` of the storage root
    has no observable effect on the modelled state.
-/

/-- A BSON/JSON value as it occurs in queries and stored documents:
an ObjectId, a string, or a number.  BSON equality is type-discriminating:
an ObjectId never equals a string or a number. -/
inductive Val where
  | oid : Nat → Val
  | str : String → Val
  | num : Int → Val
deriving DecidableEq, Repr

/-- A document of the `users` collection: `{_id, email, password}` where
`password` holds the stored hash (`SHA1(password)` at creation). -/
structure UserDoc where
  _id : Nat
  email : String
  password : String
deriving DecidableEq, Repr

/-- A document of the `files` collection, as inserted by
`DBClient.createFile`: `{_id, userId, name, type, parentId, isPublic}`
plus the optional `localPath`.  The source's two `insertOne` branches
differ only in BSON field order and in whether `localPath` is present;
the optional field captures both. -/
structure FileDoc where
  _id : Nat
  userId : Val
  name : String
  type : String
  parentId : Val
  isPublic : Bool
  localPath : Option String
deriving DecidableEq, Repr

/-- One Redis entry: stored string value and absolute expiry time. -/
structure RedisEntry where
  value : String
  expiresAt : Nat
deriving DecidableEq, Repr

/-- The backing state: the two Mongo collections, the Redis cache, the
sequence of blob writes performed so far (most recent last), and the
counter supplying fresh ObjectIds. -/
structure St where
  users : List UserDoc
  files : List FileDoc
  redis : List (String × RedisEntry)
  blobWrites : List (List Nat)
  nextId : Nat
deriving DecidableEq, Repr

/-- JS truthiness of an optional string header/field: falsy iff absent or
empty (`!x` in the source). -/
def jsStrFalsy : Option String → Bool
  | none => true
  | some s => s = ""

/-- JS truthiness of a JSON value in `req.body.parentId || 0`:
the number 0 and the empty string are falsy. -/
def jsValFalsy (v : Val) : Bool :=
  v = Val.num 0 || v = Val.str ""

/-- `redisClient.set key value 86400` (SETEX): stores `value` under `key`
expiring `duration` seconds after the current time `t`. -/
def redisSet (l : List (String × RedisEntry)) (k v : String) (duration t : Nat) :
    List (String × RedisEntry) :=
  (k, ⟨v, t + duration⟩) :: l

/-- `redisClient.get key` at time `t`: the stored value, provided its
expiry has not passed. -/
def redisGet (l : List (String × RedisEntry)) (k : String) (t : Nat) :
    Option String :=
  match l.find? (fun e => e.1 = k) with
  | none => none
  | some e => if t < e.2.expiresAt then some e.2.value else none

/-- `redisClient.del key`: the state after removing every binding of `k`. -/
def redisDel (l : List (String × RedisEntry)) (k : String) :
    List (String × RedisEntry) :=
  l.filter (fun e => ¬ (e.1 = k))

/-- The count returned by `redisClient.del key` at time `t`: 1 if a live
(unexpired) key was removed, 0 otherwise (Redis treats an expired key as
already absent). -/
def redisDelCount (l : List (String × RedisEntry)) (k : String) (t : Nat) : Nat :=
  if (redisGet l k t).isSome then 1 else 0

/-- `DBClient.getUser(email)`: `usersCollection.findOne({ email })`. -/
def DBClient.getUser (users : List UserDoc) (email : String) : Option UserDoc :=
  users.find? (fun u => u.email = email)

/-- `DBClient.getFile(id, userId)`:
`filesCollection.findOne({ _id: id, userId: ObjectId(userId) })`.
The query value `id` arrives from request data (`req.params.id` or
`req.body.parentId`), so it is a `Val.str`/`Val.num`, while the stored
`_id` is an ObjectId; BSON matching compares them as typed values.
`userId` is always the caller's `user._id` ObjectId, and
`ObjectId(userId)` of an ObjectId is itself. -/
def DBClient.getFile (files : List FileDoc) (id : Val) (userId : Nat) :
    Option FileDoc :=
  files.find? (fun f => Val.oid f._id = id ∧ f.userId = Val.oid userId)

/-- `DBClient.createFile(userId, name, type, parentId, isPublic, localPath)`:
inserts the document with a store-assigned `_id` and returns
`insertedId`.  Returns the new state and the inserted id. -/
def DBClient.createFile (st : St) (userId : Val) (name type : String)
    (parentId : Val) (isPublic : Bool) (localPath : Option String) :
    Nat × St :=
  (st.nextId,
   { st with
      files := st.files ++
        [⟨st.nextId, userId, name, type, parentId, isPublic, localPath⟩],
      nextId := st.nextId + 1 })

/-- `DBClient.createUser(email, password)`: inserts
`{ email, password: SHA1(password) }` with a store-assigned `_id`.
The SHA1 hash is an opaque deterministic function supplied as the
parameter `sha1`. -/
def DBClient.createUser (sha1 : String → String) (st : St)
    (email password : String) : Nat × St :=
  (st.nextId,
   { st with
      users := st.users ++ [⟨st.nextId, email, sha1 password⟩],
      nextId := st.nextId + 1 })

/-- `DBClient.getFiles(parentId, userId, offset, limit)`:
`filesCollection.find({ parentId, userId }).skip(offset).limit(limit)`.
The query's `userId` is the caller's `user._id` ObjectId; documents come
back in the store's natural (insertion) order. -/
def DBClient.getFiles (files : List FileDoc) (parentId : Val) (userId : Nat)
    (offset limit : Nat) : List FileDoc :=
  (((files.filter (fun f => f.parentId = parentId ∧ f.userId = Val.oid userId)).drop
      offset).take limit)

/-- The value of one base64 alphabet character, `none` for every other
character (Node's decoder skips those). -/
def b64Val (c : Char) : Option Nat :=
  if 65 ≤ c.toNat ∧ c.toNat ≤ 90 then some (c.toNat - 65)
  else if 97 ≤ c.toNat ∧ c.toNat ≤ 122 then some (c.toNat - 71)
  else if 48 ≤ c.toNat ∧ c.toNat ≤ 57 then some (c.toNat + 4)
  else if c = '+' then some 62
  else if c = '/' then some 63
  else none

/-- Bytes of a sequence of 6-bit base64 values; a trailing group of 2 or 3
values yields 1 or 2 bytes, trailing bits dropped (Node semantics). -/
def b64Bytes : List Nat → List Nat
  | a :: b :: c :: d :: rest =>
      (a * 4 + b / 16) :: ((b % 16) * 16 + c / 4) :: ((c % 4) * 64 + d) ::
        b64Bytes rest
  | [a, b] => [a * 4 + b / 16]
  | [a, b, c] => [a * 4 + b / 16, (b % 16) * 16 + c / 4]
  | _ => []

/-- `Buffer.from(s, 'base64')`: lenient base64 decoding to bytes. -/
def base64Decode (s : String) : List Nat :=
  b64Bytes (s.data.filterMap b64Val)

/-- Is `b` a UTF-8 continuation byte (0x80..0xBF)? -/
def isCont (b : Nat) : Bool :=
  128 ≤ b ∧ b ≤ 191

/-- Admissible second byte after a three-byte lead `b` (WHATWG ranges:
lead 0xE0 narrows to 0xA0..0xBF, lead 0xED to 0x80..0x9F). -/
def cont3Ok (b b2 : Nat) : Bool :=
  if b = 224 then 160 ≤ b2 ∧ b2 ≤ 191
  else if b = 237 then 128 ≤ b2 ∧ b2 ≤ 159
  else isCont b2

/-- Admissible second byte after a four-byte lead `b` (WHATWG ranges:
lead 0xF0 narrows to 0x90..0xBF, lead 0xF4 to 0x80..0x8F). -/
def cont4Ok (b b2 : Nat) : Bool :=
  if b = 240 then 144 ≤ b2 ∧ b2 ≤ 191
  else if b = 244 then 128 ≤ b2 ∧ b2 ≤ 143
  else isCont b2

/-- Worker for `utf8DecodeRepl`.  The first argument is fuel used only to
make the recursion structural; every step consumes at least one byte of
the list, so fuel equal to the list's length (as supplied by
`utf8DecodeRepl`) is never exhausted. -/
def utf8Go : Nat → List Nat → List Nat
  | 0, _ => []
  | _ + 1, [] => []
  | fuel + 1, b :: rest =>
    if b ≤ 127 then b :: utf8Go fuel rest
    else if 194 ≤ b ∧ b ≤ 223 then
      match rest with
      | [] => [65533]
      | c2 :: s2 =>
        if isCont c2 then ((b - 192) * 64 + (c2 - 128)) :: utf8Go fuel s2
        else 65533 :: utf8Go fuel rest
    else if 224 ≤ b ∧ b ≤ 239 then
      match rest with
      | [] => [65533]
      | d2 :: u2 =>
        if cont3Ok b d2 then
          match u2 with
          | [] => [65533]
          | d3 :: u3 =>
            if isCont d3 then
              ((b - 224) * 4096 + (d2 - 128) * 64 + (d3 - 128)) ::
                utf8Go fuel u3
            else 65533 :: utf8Go fuel u2
        else 65533 :: utf8Go fuel rest
    else if 240 ≤ b ∧ b ≤ 244 then
      match rest with
      | [] => [65533]
      | e2 :: v2 =>
        if cont4Ok b e2 then
          match v2 with
          | [] => [65533]
          | e3 :: v3 =>
            if isCont e3 then
              match v3 with
              | [] => [65533]
              | e4 :: v4 =>
                if isCont e4 then
                  ((b - 240) * 262144 + (e2 - 128) * 4096 +
                      (e3 - 128) * 64 + (e4 - 128)) :: utf8Go fuel v4
                else 65533 :: utf8Go fuel v3
            else 65533 :: utf8Go fuel v2
        else 65533 :: utf8Go fuel rest
    else 65533 :: utf8Go fuel rest

/-- `buffer.toString('utf-8')`: WHATWG UTF-8 decoding of a byte sequence
to a sequence of code points, emitting U+FFFD (65533) for each maximal
invalid subpart and resuming at the first unconsumable byte. -/
def utf8DecodeRepl (l : List Nat) : List Nat :=
  utf8Go l.length l

/-- UTF-8 encoding of one code point. -/
def utf8EncodeChar (c : Nat) : List Nat :=
  if c < 128 then [c]
  else if c < 2048 then [192 + c / 64, 128 + c % 64]
  else if c < 65536 then [224 + c / 4096, 128 + (c / 64) % 64, 128 + c % 64]
  else [240 + c / 262144, 128 + (c / 4096) % 64, 128 + (c / 64) % 64,
        128 + c % 64]

/-- The bytes `fs.writeFile` puts on disk for a JS string: the UTF-8
encoding of its code points. -/
def utf8Encode (cs : List Nat) : List Nat :=
  cs.foldr (fun c acc => utf8EncodeChar c ++ acc) []

/-- Error raised by `getUserFromToken` in src/utils/auth.js:
`'Missing token'` or `'Unauthorized'`. -/
inductive AuthErr where
  | missingToken
  | unauthorized
deriving DecidableEq, Repr

/-- `getUserFromToken(token)` (src/utils/auth.js): the identity-resolution
gate.  Fails `Missing token` on a falsy token; reads
`redisClient.get('auth_' + token)` at the current time `t`; fails
`Unauthorized` when the session is absent/expired or when the stored
email no longer resolves to a user. -/
def getUserFromToken (token : Option String) (t : Nat) (st : St) :
    Except AuthErr UserDoc :=
  if jsStrFalsy token then .error .missingToken
  else
    match redisGet st.redis ("auth_" ++ token.getD "") t with
    | none => .error .unauthorized
    | some email =>
      match DBClient.getUser st.users email with
      | none => .error .unauthorized
      | some user => .ok user

/-- Outcome of `AuthController.getConnect`: 401 Unauthorized, or 200 with
the issued token. -/
inductive ConnectResult where
  | unauthorized
  | ok (token : String)
deriving DecidableEq, Repr

/-- `AuthController.getConnect` after the Basic-Authorization header has
been decoded into the `(email, password)` pair (the decoding itself is the
HTTP collaborator's job, per the Basic-Auth utility): looks the user up by
email, compares `user.password` with `SHA1(password)`, and on success
stores `auth_<token> -> user.email` in Redis with a 86400-second expiry.
`freshTok` stands for the generated `uuid.v4()` value and `t` for the
current time. -/
def AuthController.getConnect (sha1 : String → String) (email password : String)
    (freshTok : String) (t : Nat) (st : St) : ConnectResult × St :=
  match DBClient.getUser st.users email with
  | none => (.unauthorized, st)
  | some user =>
    if user.password ≠ sha1 password then (.unauthorized, st)
    else
      (.ok freshTok,
       { st with redis := redisSet st.redis ("auth_" ++ freshTok) user.email 86400 t })

/-- Outcome of `AuthController.getDisconnect`: 400 Missing token,
401 Unauthorized (the delete removed nothing), or 204 No Content. -/
inductive DisconnectResult where
  | missingToken
  | unauthorized
  | noContent
deriving DecidableEq, Repr

/-- `AuthController.getDisconnect`: rejects a falsy `x-token` header with
400 `Missing token`; otherwise deletes `auth_<token>` from Redis and
answers 401 `Unauthorized` when the delete count is 0, 204 otherwise. -/
def AuthController.getDisconnect (token : Option String) (t : Nat) (st : St) :
    DisconnectResult × St :=
  if jsStrFalsy token then (.missingToken, st)
  else
    let k := "auth_" ++ token.getD ""
    let cnt := redisDelCount st.redis k t
    let st' : St := { st with redis := redisDel st.redis k }
    if cnt = 0 then (.unauthorized, st') else (.noContent, st')

/-- The JSON object a FileController handler sends back for one record:
exactly the fields `{id, userId, name, type, isPublic, parentId}`.
The blob locator `localPath` has no counterpart here, mirroring the
response literals in the source. -/
structure Entry where
  id : Val
  userId : Val
  name : String
  type : String
  isPublic : Bool
  parentId : Val
deriving DecidableEq, Repr

/-- The upload request body fields consumed by `postUpload`:
`{name, type, data, parentId, isPublic}`, each possibly absent. -/
structure UploadReq where
  name : Option String
  type : Option String
  data : Option String
  parentId : Option Val
  isPublic : Option Bool
deriving DecidableEq, Repr

/-- Outcome of `FileController.postUpload`: 201 with the response entry,
or 400 with the thrown message (`Missing name`, `Missing type`,
`Missing data`, `Parent not found`, `Parent is not a folder`). -/
inductive UploadResult where
  | created (entry : Entry)
  | badRequest (msg : String)
deriving DecidableEq, Repr

/-- The effective `parentId` of an upload: `req.body.parentId || 0`. -/
def effParentId (p : Option Val) : Val :=
  match p with
  | none => Val.num 0
  | some v => if jsValFalsy v then Val.num 0 else v

/-- Body of `FileController.postUpload` after the token gate has resolved
`user` (src/unnamed/part_001, lines 46-101).  Validation is the source's
fail-fast chain; a folder is persisted and answered immediately with no
blob write; a file/image first validates `parentId` through
`DBClient.getFile`, then writes the decoded payload
(`Buffer.from(data,'base64').toString('utf-8')`, re-encoded to bytes by
the write) to the blob store and persists the record.  The generated
`FOLDER_PATH/uuid` locator is recorded as an opaque `localPath`. -/
def postUploadBody (user : UserDoc) (req : UploadReq) (st : St) :
    UploadResult × St :=
  if jsStrFalsy req.name then (.badRequest "Missing name", st)
  else if req.type ≠ some "folder" ∧ req.type ≠ some "file" ∧
      req.type ≠ some "image" then (.badRequest "Missing type", st)
  else if (req.type = some "file" ∨ req.type = some "image") ∧
      jsStrFalsy req.data then (.badRequest "Missing data", st)
  else
    let name := req.name.getD ""
    let typ := req.type.getD ""
    let parentId := effParentId req.parentId
    let isPublic := req.isPublic.getD false
    if req.type = some "folder" then
      let ins := DBClient.createFile st (Val.oid user._id) name typ parentId
        isPublic none
      (.created ⟨Val.oid ins.1, Val.oid user._id, name, typ, isPublic, parentId⟩,
       ins.2)
    else
      let parentErr : Option String :=
        if parentId = Val.num 0 then none
        else
          match DBClient.getFile st.files parentId user._id with
          | none => some "Parent not found"
          | some parent =>
            if parent.type ≠ "folder" then some "Parent is not a folder"
            else none
      match parentErr with
      | some msg => (.badRequest msg, st)
      | none =>
        let bytes := utf8Encode (utf8DecodeRepl (base64Decode (req.data.getD "")))
        let stw : St := { st with blobWrites := st.blobWrites ++ [bytes] }
        let ins := DBClient.createFile stw (Val.oid user._id) name typ parentId
          isPublic (some "FOLDER_PATH/uuid")
        (.created ⟨Val.oid ins.1, Val.oid user._id, name, typ, isPublic, parentId⟩,
         ins.2)

/-- `FileController.postUpload` including the token gate: a failed gate
answers 401/400 without touching the stores. -/
def FileController.postUpload (token : Option String) (req : UploadReq)
    (t : Nat) (st : St) : Except AuthErr (UploadResult × St) :=
  match getUserFromToken token t st with
  | .error e => .error e
  | .ok user => .ok (postUploadBody user req st)

/-- Outcome of `FileController.getShow`: 404 `Not found` or 200 with the
response entry. -/
inductive ShowResult where
  | notFound
  | ok (entry : Entry)
deriving DecidableEq, Repr

/-- Body of `FileController.getShow` after the token gate
(src/unnamed/part_001, lines 147-179): fetches the record through
`DBClient.getFile(req.params.id, user._id)` — the route parameter is a
string — and builds the response literal, whose `userId` field the source
populates with `document._id`. -/
def getShowBody (user : UserDoc) (idParam : String) (st : St) : ShowResult :=
  match DBClient.getFile st.files (Val.str idParam) user._id with
  | none => .notFound
  | some document =>
    .ok ⟨Val.oid document._id, Val.oid document._id, document.name,
         document.type, document.isPublic, document.parentId⟩

/-- `FileController.getShow` including the token gate. -/
def FileController.getShow (token : Option String) (idParam : String)
    (t : Nat) (st : St) : Except AuthErr ShowResult :=
  match getUserFromToken token t st with
  | .error e => .error e
  | .ok user => .ok (getShowBody user idParam st)

/-- The Mongo query value built from `req.query.parentId || 0`: an absent
or empty query parameter falls back to the number 0, any other value is
the raw query string. -/
def parentValOf (parentQ : Option String) : Val :=
  match parentQ with
  | none => Val.num 0
  | some s => if s = "" then Val.num 0 else Val.str s

/-- One of the WhiteSpace / LineTerminator code points that JS
`ToNumber` trims from a string before parsing (ECMA StringToNumber):
TAB LF VT FF CR SP NBSP OGHAM, U+2000..U+200A, LS PS NNBSP MMSP
IDEOGRAPHIC SPACE and the BOM. -/
def isJsWhitespace (c : Char) : Bool :=
  c.toNat = 9 ∨ c.toNat = 10 ∨ c.toNat = 11 ∨ c.toNat = 12 ∨ c.toNat = 13 ∨
  c.toNat = 32 ∨ c.toNat = 160 ∨ c.toNat = 5760 ∨
  (8192 ≤ c.toNat ∧ c.toNat ≤ 8202) ∨ c.toNat = 8232 ∨ c.toNat = 8233 ∨
  c.toNat = 8239 ∨ c.toNat = 8287 ∨ c.toNat = 12288 ∨ c.toNat = 65279

/-- An ASCII decimal digit. -/
def isDigitC (c : Char) : Bool :=
  48 ≤ c.toNat ∧ c.toNat ≤ 57

/-- An ASCII hexadecimal digit. -/
def isHexDigitC (c : Char) : Bool :=
  isDigitC c ∨ (65 ≤ c.toNat ∧ c.toNat ≤ 70) ∨ (97 ≤ c.toNat ∧ c.toNat ≤ 102)

/-- An ASCII octal digit. -/
def isOctDigitC (c : Char) : Bool :=
  48 ≤ c.toNat ∧ c.toNat ≤ 55

/-- An ASCII binary digit. -/
def isBinDigitC (c : Char) : Bool :=
  c = '0' ∨ c = '1'

/-- Both-ends JS-whitespace trimming, the first step of StringToNumber. -/
def trimJs (cs : List Char) : List Char :=
  ((cs.dropWhile isJsWhitespace).reverse.dropWhile isJsWhitespace).reverse

/-- The digits of a SignedInteger exponent part: optional sign, then a
nonempty digit run. -/
def expDigits : List Char → Bool
  | '+' :: rest => rest ≠ [] ∧ rest.all isDigitC
  | '-' :: rest => rest ≠ [] ∧ rest.all isDigitC
  | rest => rest ≠ [] ∧ rest.all isDigitC

/-- What may follow the mantissa of a decimal literal: nothing, or an
`e`/`E` exponent with signed digits. -/
def expOk : List Char → Bool
  | [] => true
  | c :: rest => (c = 'e' ∨ c = 'E') ∧ expDigits rest

/-- StrUnsignedDecimalLiteral: `Infinity`, or digits with an optional
fraction and optional exponent, or a leading-dot fraction (at least one
digit on some side of the dot). -/
def strUnsignedDec (cs : List Char) : Bool :=
  if cs = "Infinity".data then true
  else
    let intPart := cs.takeWhile isDigitC
    let rest1 := cs.dropWhile isDigitC
    match rest1 with
    | '.' :: rest2 =>
      (intPart ≠ [] ∨ rest2.takeWhile isDigitC ≠ []) ∧
        expOk (rest2.dropWhile isDigitC)
    | r => intPart ≠ [] ∧ expOk r

/-- StrDecimalLiteral: an optional sign, then an unsigned decimal
literal. -/
def strSignedDec (cs : List Char) : Bool :=
  match cs with
  | [] => false
  | c :: rest => if c = '+' ∨ c = '-' then strUnsignedDec rest
                 else strUnsignedDec (c :: rest)

/-- StrNumericLiteral: a `0x`/`0o`/`0b` radix literal (no sign allowed,
nonempty digit run), or a signed decimal literal. -/
def strNumericLit (cs : List Char) : Bool :=
  match cs with
  | c0 :: c1 :: rest =>
    if c0 = '0' ∧ (c1 = 'x' ∨ c1 = 'X') then rest ≠ [] ∧ rest.all isHexDigitC
    else if c0 = '0' ∧ (c1 = 'o' ∨ c1 = 'O') then rest ≠ [] ∧ rest.all isOctDigitC
    else if c0 = '0' ∧ (c1 = 'b' ∨ c1 = 'B') then rest ≠ [] ∧ rest.all isBinDigitC
    else strSignedDec (c0 :: c1 :: rest)
  | cs => strSignedDec cs

/-- Whether JS `ToNumber` of the string yields a number rather than NaN
(ECMA StringToNumber): trim JS whitespace; the empty remainder is the
number 0; otherwise the remainder must be a StrNumericLiteral.  `false`
is exactly the NaN case, where `page * 20 || 0` coerces the offset
to 0. -/
def jsNumericStr (s : String) : Bool :=
  if trimJs s.data = [] then true else strNumericLit (trimJs s.data)

/-- The integer fragment of JS numeric coercion for a page query string:
a nonempty all-digit string parses to its value (where JS agrees exactly
and `page * 20` is this integer), `none` otherwise.  The theorems
quantify only where this model matches the program: pages with
`jsToNum? = some n` (C9) and strings whose coercion is NaN, i.e.
`jsNumericStr = false` (C10), which always fall in the `none` branch.
Numeric-but-not-all-digit strings (`" 1"`, `"1.5"`, `"1e2"`, `"-1"`)
produce IEEE-double multiplications and driver-level skips (negative
skips error) outside this fragment, and no theorem covers them. -/
def jsToNum? (s : String) : Option Nat :=
  if s.data ≠ [] ∧ s.data.all isDigitC then
    some (s.data.foldl (fun n c => n * 10 + (c.toNat - 48)) 0)
  else none

/-- The skip offset built from `req.query.page * 20 || 0`: a numeric page
string contributes `page * 20`, anything else multiplies to NaN and falls
back to 0 (an absent or empty parameter likewise yields 0). -/
def pageOffset (pageQ : Option String) : Nat :=
  match pageQ with
  | none => 0
  | some s =>
    match jsToNum? s with
    | none => 0
    | some n => n * 20

/-- Body of `FileController.getIndex` after the token gate
(src/unnamed/part_001, lines 205-228): computes the parent filter and the
offset from the query string, fetches one page of 20 through
`DBClient.getFiles`, and maps each document to the response literal —
whose `userId` field the source populates with `document._id`. -/
def getIndexBody (user : UserDoc) (parentQ pageQ : Option String) (st : St) :
    List Entry :=
  (DBClient.getFiles st.files (parentValOf parentQ) user._id
      (pageOffset pageQ) 20).map
    (fun document =>
      ⟨Val.oid document._id, Val.oid document._id, document.name,
       document.type, document.isPublic, document.parentId⟩)

/-- `FileController.getIndex` including the token gate. -/
def FileController.getIndex (token : Option String) (parentQ pageQ : Option String)
    (t : Nat) (st : St) : Except AuthErr (List Entry) :=
  match getUserFromToken token t st with
  | .error e => .error e
  | .ok user => .ok (getIndexBody user parentQ pageQ st)

/-- The documents of the files collection matching `(parentId, ownerId)`
in store order — the sequence that `getFiles` paginates. -/
def matchingDocs (files : List FileDoc) (parentId : Val) (userId : Nat) :
    List FileDoc :=
  files.filter (fun f => f.parentId = parentId ∧ f.userId = Val.oid userId)

/-- The response entry a FileController listing builds from a stored
document (the source's literal, `userId` slip included). -/
def toEntry (document : FileDoc) : Entry :=
  ⟨Val.oid document._id, Val.oid document._id, document.name,
   document.type, document.isPublic, document.parentId⟩

/-- The n-th 0-indexed page of 20 listing entries over the matching
documents, in store order — the window `getIndex` is expected to serve. -/
def listPage (files : List FileDoc) (parentId : Val) (userId : Nat) (n : Nat) :
    List Entry :=
  (((matchingDocs files parentId userId).drop (n * 20)).take 20).map toEntry

/-! ### Concrete fixtures

Small concrete stores used by the closed evaluation theorems and by the
witnesses of the general theorems. -/

/-- A concrete stand-in for the opaque SHA1 hash (any deterministic
function works for the general theorems; witnesses fix this one). -/
def sha1Fix : String → String := fun s => "sha#" ++ s

/-- A registered identity. -/
def uAlice : UserDoc := ⟨1, "alice@example.com", "sha#secret1"⟩

/-- A second registered identity. -/
def uBob : UserDoc := ⟨2, "bob@example.com", "sha#pw2"⟩

/-- The store right after Alice's registration: one user, no files. -/
def stReg : St := ⟨[uAlice], [], [], [], 2⟩

/-- A persisted folder owned by Alice, at the root. -/
def folderDoc : FileDoc := ⟨7, Val.oid 1, "docs", "folder", Val.num 0, false, none⟩

/-- Alice plus her persisted folder. -/
def stFolder : St := ⟨[uAlice], [folderDoc], [], [], 8⟩

/-- A file at the root owned by Alice. -/
def fileA : FileDoc := ⟨3, Val.oid 1, "a.txt", "file", Val.num 0, false, some "pA"⟩

/-- A file at the root owned by Bob. -/
def fileB : FileDoc := ⟨4, Val.oid 2, "b.txt", "file", Val.num 0, false, some "pB"⟩

/-- Both identities with one root file each (spec Scenario E). -/
def stAB : St := ⟨[uAlice, uBob], [fileA, fileB], [], [], 5⟩

/-- Alice with three root files, for the pagination witnesses. -/
def stL : St :=
  ⟨[uAlice],
   [⟨10, Val.oid 1, "f10", "file", Val.num 0, false, some "p10"⟩,
    ⟨11, Val.oid 1, "f11", "file", Val.num 0, false, some "p11"⟩,
    ⟨12, Val.oid 1, "f12", "file", Val.num 0, false, some "p12"⟩],
   [], [], 13⟩

/-! ### Helper lemmas -/

/-- If filtering leaves exactly one element, `find?` returns it. -/
theorem find?_of_filter_singleton {α : Type} {p : α → Bool} {l : List α} {u : α}
    (h : l.filter p = [u]) : l.find? p = some u := by
  induction l with
  | nil => simp at h
  | cons a l ih =>
    rw [List.filter_cons] at h
    by_cases hp : p a
    · simp only [hp, if_true] at h
      rw [List.find?_cons, hp]
      exact congrArg some (List.cons_eq_cons.mp h).1
    · simp only [Bool.not_eq_true] at hp
      simp only [hp, Bool.false_eq_true, if_false] at h
      rw [List.find?_cons, hp]
      exact ih h

/-- If filtering leaves exactly one element, it satisfies the filter. -/
theorem pred_of_filter_singleton {α : Type} {p : α → Bool} {l : List α} {u : α}
    (h : l.filter p = [u]) : p u = true := by
  have hu : u ∈ l.filter p := by rw [h]; exact List.mem_singleton.mpr rfl
  exact (List.mem_filter.mp hu).2

/-- A `getFile` lookup whose query id is a string never matches: every
stored `_id` is an ObjectId and BSON equality is type-discriminating. -/
theorem getFile_str_eq_none (files : List FileDoc) (s : String) (uid : Nat) :
    DBClient.getFile files (Val.str s) uid = none := by
  apply List.find?_eq_none.mpr
  intro f _
  simp

/-- After `redisDel`, a `redisGet` of the same key misses at any time. -/
theorem redisGet_redisDel (l : List (String × RedisEntry)) (k : String) (t : Nat) :
    redisGet (redisDel l k) k t = none := by
  have h : (redisDel l k).find? (fun e => e.1 = k) = none := by
    apply List.find?_eq_none.mpr
    intro e he
    have := (List.mem_filter.mp he).2
    simpa using this
  simp [redisGet, h]

/-- Concatenating the windows 0..k of width `w` over `l` is the first
`(k+1) * w` elements of `l`. -/
theorem flatMap_range_windows {α : Type} (l : List α) (w k : Nat) :
    (List.range (k + 1)).flatMap (fun i => (l.drop (i * w)).take w)
      = l.take ((k + 1) * w) := by
  induction k with
  | zero => simp [List.range_succ]
  | succ k ih =>
    rw [List.range_succ, List.flatMap_append, ih]
    have hsplit : (k + 1 + 1) * w = (k + 1) * w + w := by ring
    rw [hsplit, List.take_add]
    simp

/-- `takeWhile` keeps a list every element of which satisfies the
predicate. -/
theorem takeWhile_eq_self_of_all {α : Type} {p : α → Bool} {l : List α}
    (h : ∀ c ∈ l, p c = true) : l.takeWhile p = l := by
  induction l with
  | nil => rfl
  | cons a l ih =>
    rw [List.takeWhile_cons, h a (by simp)]
    simp [ih (fun c hc => h c (by simp [hc]))]

/-- `dropWhile` empties a list every element of which satisfies the
predicate. -/
theorem dropWhile_eq_nil_of_all {α : Type} {p : α → Bool} {l : List α}
    (h : ∀ c ∈ l, p c = true) : l.dropWhile p = [] := by
  induction l with
  | nil => rfl
  | cons a l ih =>
    rw [List.dropWhile_cons, h a (by simp)]
    simp [ih (fun c hc => h c (by simp [hc]))]

/-- `dropWhile` keeps a list no element of which satisfies the
predicate. -/
theorem dropWhile_eq_self_of_all_not {α : Type} {p : α → Bool} {l : List α}
    (h : ∀ c ∈ l, p c = false) : l.dropWhile p = l := by
  cases l with
  | nil => rfl
  | cons a l =>
    rw [List.dropWhile_cons, h a (by simp)]
    simp

/-- A decimal digit is not JS whitespace. -/
theorem digit_not_ws {c : Char} (h : isDigitC c = true) :
    isJsWhitespace c = false := by
  simp only [isDigitC, decide_eq_true_eq] at h
  cases hw : isJsWhitespace c with
  | false => rfl
  | true =>
    simp only [isJsWhitespace, decide_eq_true_eq] at hw
    omega

/-- A digit character differs from every non-digit character. -/
theorem digit_char_ne {c d : Char} (h : isDigitC c = true)
    (hd : isDigitC d = false) : c ≠ d := by
  intro he
  subst he
  simp [h] at hd

/-- A nonempty all-digit string is an unsigned decimal literal. -/
theorem strUnsignedDec_of_digits {cs : List Char} (hne : cs ≠ [])
    (hall : ∀ c ∈ cs, isDigitC c = true) : strUnsignedDec cs = true := by
  have hInf : cs ≠ "Infinity".data := by
    intro he
    have hI : isDigitC 'I' = true := hall 'I' (by rw [he]; decide)
    exact absurd hI (by decide)
  unfold strUnsignedDec
  rw [if_neg hInf]
  simp only [takeWhile_eq_self_of_all hall, dropWhile_eq_nil_of_all hall]
  simp [hne, expOk]

/-- A nonempty all-digit string is a signed decimal literal. -/
theorem strSignedDec_of_digits {cs : List Char} (hne : cs ≠ [])
    (hall : ∀ c ∈ cs, isDigitC c = true) : strSignedDec cs = true := by
  cases cs with
  | nil => exact absurd rfl hne
  | cons c rest =>
    have hc : isDigitC c = true := hall c (by simp)
    have hsign : ¬(c = '+' ∨ c = '-') := by
      rintro (h | h) <;> exact digit_char_ne hc (by decide) h
    simp only [strSignedDec]
    rw [if_neg hsign]
    exact strUnsignedDec_of_digits (by simp) hall

/-- A nonempty all-digit string is a numeric literal. -/
theorem strNumericLit_of_digits {cs : List Char} (hne : cs ≠ [])
    (hall : ∀ c ∈ cs, isDigitC c = true) : strNumericLit cs = true := by
  cases cs with
  | nil => exact absurd rfl hne
  | cons c0 tl =>
    cases tl with
    | nil =>
      simp only [strNumericLit]
      exact strSignedDec_of_digits (by simp) hall
    | cons c1 rest =>
      have h1 : isDigitC c1 = true := hall c1 (by simp)
      have hx : ¬(c0 = '0' ∧ (c1 = 'x' ∨ c1 = 'X')) := by
        rintro ⟨_, h | h⟩ <;> exact digit_char_ne h1 (by decide) h
      have ho : ¬(c0 = '0' ∧ (c1 = 'o' ∨ c1 = 'O')) := by
        rintro ⟨_, h | h⟩ <;> exact digit_char_ne h1 (by decide) h
      have hb : ¬(c0 = '0' ∧ (c1 = 'b' ∨ c1 = 'B')) := by
        rintro ⟨_, h | h⟩ <;> exact digit_char_ne h1 (by decide) h
      simp only [strNumericLit]
      rw [if_neg hx, if_neg ho, if_neg hb]
      exact strSignedDec_of_digits (by simp) hall

/-- A nonempty all-digit string is numeric under JS `ToNumber`. -/
theorem jsNumericStr_of_digits {s : String} (hne : s.data ≠ [])
    (hall : ∀ c ∈ s.data, isDigitC c = true) : jsNumericStr s = true := by
  have hws : ∀ c ∈ s.data, isJsWhitespace c = false :=
    fun c hc => digit_not_ws (hall c hc)
  have htrim : trimJs s.data = s.data := by
    unfold trimJs
    rw [dropWhile_eq_self_of_all_not hws,
      dropWhile_eq_self_of_all_not (fun c hc => hws c (List.mem_reverse.mp hc)),
      List.reverse_reverse]
  unfold jsNumericStr
  rw [htrim, if_neg hne]
  exact strNumericLit_of_digits hne hall

/-- A string whose JS numeric coercion is NaN is in particular not a
nonempty all-digit string, so the integer fragment parses it to
`none`. -/
theorem jsToNum_none_of_nonnumeric {s : String} (h : jsNumericStr s = false) :
    jsToNum? s = none := by
  have hcond : ¬(s.data ≠ [] ∧ s.data.all isDigitC = true) := by
    rintro ⟨hne, hall⟩
    have hall2 : ∀ c ∈ s.data, isDigitC c = true := List.all_eq_true.mp hall
    have h2 := jsNumericStr_of_digits hne hall2
    rw [h] at h2
    exact Bool.false_ne_true h2
  unfold jsToNum?
  rw [if_neg hcond]

/-! ### Claim theorems -/

/-- C1: a folder upload performs no blob write (first conjunct), and a
file upload with data present and parent validation passing performs
exactly one blob write (second conjunct) — but, refuting the byte-equality
part of the claim, the bytes written are the UTF-8 re-encoding of the
lossy text decoding, not the base64-decoded input: for `data = "/w=="`
the decoded input is the single byte 0xFF while the bytes written are the
U+FFFD replacement sequence 0xEF 0xBF 0xBD. -/
theorem c1_upload_blob_write_eval :
    ((postUploadBody uAlice ⟨some "notes", some "folder", none, none, none⟩
        stReg).2).blobWrites = []
    ∧ ((postUploadBody uAlice ⟨some "a.bin", some "file", some "/w==", none, none⟩
        stReg).2).blobWrites = [[239, 191, 189]]
    ∧ base64Decode "/w==" = [255]
    ∧ ([[239, 191, 189]] : List (List Nat)) ≠ [[255]] := by
  exact ⟨by decide, by decide, by decide, by decide⟩

/-- C4: the listing response exposes exactly the six fields of `Entry`
(no blob reference), but its `userId` field is populated with the
record's own `_id`, not the owner's identity id: over a store whose only
file has `_id` 2 and owner 1, the single response entry carries
`userId = Val.oid 2` while the record's owner is `Val.oid 1`. -/
theorem c4_index_userid_field_eval :
    getIndexBody uAlice none none
        ⟨[uAlice], [⟨2, Val.oid 1, "a.txt", "file", Val.num 0, false, some "pA"⟩],
         [], [], 3⟩
      = [⟨Val.oid 2, Val.oid 2, "a.txt", "file", false, Val.num 0⟩]
    ∧ (⟨2, Val.oid 1, "a.txt", "file", Val.num 0, false, some "pA"⟩ : FileDoc).userId
        = Val.oid 1
    ∧ Val.oid 2 ≠ Val.oid 1 := by
  exact ⟨by decide, by decide, by decide⟩

/-- C5: a folder upload skips parent validation entirely: against a store
with no files at all, uploading a folder with `parentId = "999"` succeeds
with 201 and persists a record whose non-root `parentId` references no
existing record — violating the claimed creation-time invariant. -/
theorem c5_folder_parent_unvalidated_eval :
    (postUploadBody uAlice
        ⟨some "orphan", some "folder", none, some (Val.str "999"), none⟩ stReg).1
      = .created ⟨Val.oid 2, Val.oid 1, "orphan", "folder", false, Val.str "999"⟩
    ∧ (postUploadBody uAlice
        ⟨some "orphan", some "folder", none, some (Val.str "999"), none⟩
        stReg).2.files
      = [⟨2, Val.oid 1, "orphan", "folder", Val.str "999", false, none⟩]
    ∧ stReg.files = []
    ∧ Val.str "999" ≠ Val.num 0 := by
  exact ⟨by decide, by decide, by decide, by decide⟩

/-- C6: the parent lookup never finds an existing folder: with Alice's
folder `_id = 7` persisted and owned by her, the lookup by the
client-visible id string `"7"` misses (a BSON string never matches the
stored ObjectId), so uploading a file under her own folder fails
`Parent not found` — while the same lookup by the ObjectId itself would
succeed, showing the record is present, owned and a folder.  The claim's
second half (a nonexistent `parentId` fails ParentNotFound) does hold
(last conjunct). -/
theorem c6_parent_lookup_never_matches_eval :
    stFolder.files = [folderDoc]
    ∧ folderDoc.type = "folder"
    ∧ folderDoc.userId = Val.oid uAlice._id
    ∧ DBClient.getFile stFolder.files (Val.oid 7) 1 = some folderDoc
    ∧ toString folderDoc._id = "7"
    ∧ DBClient.getFile stFolder.files (Val.str "7") 1 = none
    ∧ (postUploadBody uAlice
        ⟨some "a.txt", some "file", some "aGk=", some (Val.str "7"), none⟩
        stFolder).1 = .badRequest "Parent not found"
    ∧ (postUploadBody uAlice
        ⟨some "b.txt", some "file", some "aGk=", some (Val.str "999"), none⟩
        stFolder).1 = .badRequest "Parent not found" := by
  refine ⟨by decide, by decide, by decide, by decide, ?_, by decide, by decide,
    by decide⟩
  rfl

/-- C2: for an email registered exactly once (its stored hash being the
hash of the registered password), `getConnect` with that pair succeeds
and issues the fresh token, and for every time in the 86400-second TTL
window the resolution gate `getUserFromToken` — a read-only operation, so
any number of repeated calls behave alike — returns that very identity,
whose email is the registered one. -/
theorem c2_connect_resolve_roundtrip
    (sha1 : String → String) (st : St) (e pw tok : String) (u : UserDoc) (t0 : Nat)
    (hreg : st.users.filter (fun x => x.email = e) = [u])
    (hpw : u.password = sha1 pw)
    (htok : tok ≠ "") :
    (AuthController.getConnect sha1 e pw tok t0 st).1 = .ok tok
    ∧ u.email = e
    ∧ ∀ t, t0 ≤ t → t < t0 + 86400 →
        getUserFromToken (some tok) t
          (AuthController.getConnect sha1 e pw tok t0 st).2 = .ok u := by
  have hue : u.email = e := by
    have h := pred_of_filter_singleton hreg
    simpa using h
  have hfind : DBClient.getUser st.users e = some u :=
    find?_of_filter_singleton hreg
  have hconn : AuthController.getConnect sha1 e pw tok t0 st
      = (.ok tok,
         { st with redis := redisSet st.redis ("auth_" ++ tok) u.email 86400 t0 }) := by
    unfold AuthController.getConnect
    rw [hfind]
    simp [hpw]
  refine ⟨by rw [hconn], hue, ?_⟩
  intro t _ ht2
  rw [hconn]
  unfold getUserFromToken
  have hget : redisGet (redisSet st.redis ("auth_" ++ tok) u.email 86400 t0)
      ("auth_" ++ tok) t = some u.email := by
    unfold redisGet redisSet
    rw [List.find?_cons]
    simp [ht2]
  simp only [jsStrFalsy, htok, decide_eq_true_eq, if_neg, Option.getD_some]
  rw [hget]
  simp [hue, hfind]

/-- C2 witness: Alice registered once with `secret1`; connecting at time 0
issues `tok1`, and resolving `tok1` at time 86399 (the last instant of
the TTL window) returns Alice's identity. -/
theorem c2_connect_resolve_roundtrip_witness :
    (AuthController.getConnect sha1Fix "alice@example.com" "secret1" "tok1" 0
        stReg).1 = .ok "tok1"
    ∧ getUserFromToken (some "tok1") 86399
        (AuthController.getConnect sha1Fix "alice@example.com" "secret1" "tok1" 0
          stReg).2 = .ok uAlice := by
  have h := c2_connect_resolve_roundtrip sha1Fix stReg "alice@example.com"
    "secret1" "tok1" uAlice 0 (by decide) (by decide) (by decide)
  exact ⟨h.1, h.2.2 86399 (by decide) (by decide)⟩

/-- C3: for a file owned by identity A, `getShow` invoked by a different
identity B with that file's client-visible id answers `Not found`,
and answers exactly what it answers for an id that belongs to no record;
and the documents a root listing for A paginates are all owned by A. -/
theorem c3_ownership_isolation
    (st : St) (A B : UserDoc) (f : FileDoc) (s2 : String)
    (hmem : f ∈ st.files) (hown : f.userId = Val.oid A._id)
    (hAB : B._id ≠ A._id)
    (hs2 : ∀ g ∈ st.files, toString g._id ≠ s2) :
    getShowBody B (toString f._id) st = .notFound
    ∧ getShowBody B (toString f._id) st = getShowBody B s2 st
    ∧ ∀ d ∈ DBClient.getFiles st.files (Val.num 0) A._id 0 20,
        d.userId = Val.oid A._id := by
  have h1 : getShowBody B (toString f._id) st = .notFound := by
    unfold getShowBody
    rw [getFile_str_eq_none]
  have h2 : getShowBody B s2 st = .notFound := by
    unfold getShowBody
    rw [getFile_str_eq_none]
  refine ⟨h1, h1.trans h2.symm, ?_⟩
  intro d hd
  unfold DBClient.getFiles at hd
  have hd2 := List.mem_of_mem_drop (List.mem_of_mem_take hd)
  have hp := (List.mem_filter.mp hd2).2
  simp only [decide_eq_true_eq] at hp
  exact hp.2

/-- C3 witness: Alice and Bob each own one root file; Bob's `getShow` of
Alice's file id answers `Not found` and coincides with a lookup of the
nonexistent id `"999"`; Alice's root listing paginates her own file. -/
theorem c3_ownership_isolation_witness :
    getShowBody uBob (toString fileA._id) stAB = .notFound
    ∧ getShowBody uBob (toString fileA._id) stAB = getShowBody uBob "999" stAB
    ∧ fileA.userId = Val.oid uAlice._id := by
  have h := c3_ownership_isolation stAB uAlice uBob fileA "999"
    (by decide) (by decide) (by decide) (by decide)
  exact ⟨h.1, h.2.1, h.2.2 fileA (by decide)⟩

/-- C7: `getDisconnect` with an absent or empty token answers
`Missing token` and leaves the state unchanged; after a `getDisconnect`
with any nonempty token, resolving that token fails `Unauthorized` at any
later time, and a second `getDisconnect` of the same token finds nothing
to delete (delete count 0, surfaced as the Unauthorized response), never
an exception. -/
theorem c7_revoke_then_resolve
    (st : St) (tok : String) (t1 t2 t3 : Nat) (htok : tok ≠ "") :
    AuthController.getDisconnect none t1 st = (.missingToken, st)
    ∧ AuthController.getDisconnect (some "") t1 st = (.missingToken, st)
    ∧ getUserFromToken (some tok) t2
        (AuthController.getDisconnect (some tok) t1 st).2 = .error .unauthorized
    ∧ (AuthController.getDisconnect (some tok) t3
        (AuthController.getDisconnect (some tok) t1 st).2).1 = .unauthorized := by
  have hsnd : (AuthController.getDisconnect (some tok) t1 st).2
      = { st with redis := redisDel st.redis ("auth_" ++ tok) } := by
    unfold AuthController.getDisconnect
    rw [if_neg (by simp [jsStrFalsy, htok])]
    dsimp only
    split <;> rfl
  refine ⟨?_, ?_, ?_, ?_⟩
  · unfold AuthController.getDisconnect
    simp [jsStrFalsy]
  · unfold AuthController.getDisconnect
    simp [jsStrFalsy]
  · rw [hsnd]
    unfold getUserFromToken
    rw [if_neg (by simp [jsStrFalsy, htok])]
    simp only [Option.getD_some]
    rw [redisGet_redisDel]
  · rw [hsnd]
    unfold AuthController.getDisconnect
    rw [if_neg (by simp [jsStrFalsy, htok])]
    simp only [Option.getD_some, redisDelCount, redisGet_redisDel, Option.isSome_none,
      Bool.false_eq_true, if_false]
    simp

/-- C7 witness: with `tok1` live in the cache, revoking with no token
answers `Missing token`; after revoking `tok1`, resolving it at time 10
fails `Unauthorized` and a second revoke at time 20 answers
`Unauthorized` (nothing deleted). -/
theorem c7_revoke_then_resolve_witness :
    AuthController.getDisconnect none 0
        ⟨[uAlice], [], [("auth_tok1", ⟨"alice@example.com", 86400⟩)], [], 2⟩
      = (.missingToken,
         ⟨[uAlice], [], [("auth_tok1", ⟨"alice@example.com", 86400⟩)], [], 2⟩)
    ∧ getUserFromToken (some "tok1") 10
        (AuthController.getDisconnect (some "tok1") 0
          ⟨[uAlice], [], [("auth_tok1", ⟨"alice@example.com", 86400⟩)], [], 2⟩).2
      = .error .unauthorized
    ∧ (AuthController.getDisconnect (some "tok1") 20
        (AuthController.getDisconnect (some "tok1") 0
          ⟨[uAlice], [], [("auth_tok1", ⟨"alice@example.com", 86400⟩)], [], 2⟩).2).1
      = .unauthorized := by
  have h := c7_revoke_then_resolve
    ⟨[uAlice], [], [("auth_tok1", ⟨"alice@example.com", 86400⟩)], [], 2⟩
    "tok1" 0 10 20 (by decide)
  exact ⟨h.1, h.2.2.1, h.2.2.2⟩

/-- C8: `postUpload` validates fail-fast in source order: a falsy `name`
answers `Missing name` whatever else the request holds; with a truthy
name, a `type` that is absent or not one of folder/file/image answers
`Missing type`; with a truthy name and type file or image, falsy `data`
answers `Missing data`.  In every case the state is untouched. -/
theorem c8_upload_validation_order (user : UserDoc) (req : UploadReq) (st : St) :
    (jsStrFalsy req.name = true →
      postUploadBody user req st = (.badRequest "Missing name", st))
    ∧ (jsStrFalsy req.name = false →
       (∀ s, req.type = some s → s ≠ "folder" ∧ s ≠ "file" ∧ s ≠ "image") →
      postUploadBody user req st = (.badRequest "Missing type", st))
    ∧ (jsStrFalsy req.name = false →
       (req.type = some "file" ∨ req.type = some "image") →
       jsStrFalsy req.data = true →
      postUploadBody user req st = (.badRequest "Missing data", st)) := by
  refine ⟨?_, ?_, ?_⟩
  · intro h
    unfold postUploadBody
    simp [h]
  · intro h hty
    have h2 : req.type ≠ some "folder" ∧ req.type ≠ some "file" ∧
        req.type ≠ some "image" :=
      ⟨fun hc => (hty _ hc).1 rfl, fun hc => (hty _ hc).2.1 rfl,
       fun hc => (hty _ hc).2.2 rfl⟩
    unfold postUploadBody
    simp [h, h2]
  · intro h hty hdata
    have h2 : ¬(req.type ≠ some "folder" ∧ req.type ≠ some "file" ∧
        req.type ≠ some "image") := by
      rcases hty with h3 | h3 <;> simp [h3]
    unfold postUploadBody
    simp [h, h2, hty, hdata]

/-- C8 witness: a nameless file upload answers `Missing name`; a
`spreadsheet` kind answers `Missing type`; a file with no data answers
`Missing data`. -/
theorem c8_upload_validation_order_witness :
    postUploadBody uAlice ⟨none, some "file", some "x", none, none⟩ stReg
      = (.badRequest "Missing name", stReg)
    ∧ postUploadBody uAlice ⟨some "n", some "spreadsheet", some "x", none, none⟩
        stReg = (.badRequest "Missing type", stReg)
    ∧ postUploadBody uAlice ⟨some "n", some "file", none, none, none⟩ stReg
      = (.badRequest "Missing data", stReg) := by
  refine ⟨(c8_upload_validation_order uAlice _ stReg).1 (by decide),
    (c8_upload_validation_order uAlice _ stReg).2.1 (by decide) ?_,
    (c8_upload_validation_order uAlice _ stReg).2.2 (by decide) (Or.inl rfl)
      (by decide)⟩
  intro s hs
  have h : s = "spreadsheet" := by
    injection hs with h
    exact h.symm
  subst h
  exact ⟨by decide, by decide, by decide⟩

/-- C9: with a numeric page string parsing to `n`, `getIndex` serves
exactly the n-th 0-indexed window of 20 over the records matching
`(parentId, ownerId)` in store order (`listPage`); any two calls whose
page strings parse alike agree (stability — the operation reads and never
writes); concatenating the windows 0..k is exactly the first
`(k+1) * 20` matching records; and a page past the end serves the empty
sequence rather than an error. -/
theorem c9_pagination_windows
    (st : St) (user : UserDoc) (parentQ : Option String) (s : String) (n k : Nat)
    (hs : jsToNum? s = some n) :
    getIndexBody user parentQ (some s) st
      = listPage st.files (parentValOf parentQ) user._id n
    ∧ (∀ s2 : String, jsToNum? s2 = some n →
        getIndexBody user parentQ (some s2) st
          = getIndexBody user parentQ (some s) st)
    ∧ (List.range (k + 1)).flatMap
        (listPage st.files (parentValOf parentQ) user._id)
      = ((matchingDocs st.files (parentValOf parentQ) user._id).take
          ((k + 1) * 20)).map toEntry
    ∧ ((matchingDocs st.files (parentValOf parentQ) user._id).length ≤ n * 20 →
        getIndexBody user parentQ (some s) st = []) := by
  have hbody : ∀ s3 : String, jsToNum? s3 = some n →
      getIndexBody user parentQ (some s3) st
        = listPage st.files (parentValOf parentQ) user._id n := by
    intro s3 h3
    unfold getIndexBody listPage matchingDocs DBClient.getFiles toEntry
    simp only [pageOffset, h3]
  refine ⟨hbody s hs, fun s2 h2 => (hbody s2 h2).trans (hbody s hs).symm, ?_, ?_⟩
  · have hw := flatMap_range_windows
      (matchingDocs st.files (parentValOf parentQ) user._id) 20 k
    rw [← hw, List.map_flatMap]
    rfl
  · intro hlen
    rw [hbody s hs]
    unfold listPage
    rw [List.drop_eq_nil_of_le hlen]
    rfl

/-- C9 witness: Alice's three root files; page `"1"` equals window 1
(empty, since 3 < 20), the page strings `"01"` and `"1"` serve the same
sequence, windows 0..1 concatenate to the first 40 matching records, and
page `"1"` is out of range so the sequence served is empty. -/
theorem c9_pagination_windows_witness :
    getIndexBody uAlice none (some "1") stL
      = listPage stL.files (parentValOf none) uAlice._id 1
    ∧ getIndexBody uAlice none (some "01") stL
      = getIndexBody uAlice none (some "1") stL
    ∧ (List.range 2).flatMap (listPage stL.files (parentValOf none) uAlice._id)
      = ((matchingDocs stL.files (parentValOf none) uAlice._id).take 40).map
          toEntry
    ∧ getIndexBody uAlice none (some "1") stL = [] := by
  have h := c9_pagination_windows stL uAlice none "1" 1 1 (by decide)
  exact ⟨h.1, h.2.1 "01" (by decide), h.2.2.1, h.2.2.2 (by decide)⟩

/-- C10: a listing whose page parameter is absent, or is a string whose
JS numeric coercion is NaN (`jsNumericStr` rejects it: after whitespace
trimming it is neither a signed decimal/`Infinity` literal nor a
`0x`/`0o`/`0b` radix literal), is served the first page — the
`page * 20` multiplication yields NaN and `|| 0` coerces the offset
to 0 — rather than an error.  Numeric page strings beyond the all-digit
fragment (`" 1"`, `"1.5"`, `"1e2"`, `"-1"`) coerce to actual numbers and
produce real — possibly fractional or negative — skips, so they are
outside this statement's scope. -/
theorem c10_nonnumeric_page_first_window
    (st : St) (user : UserDoc) (parentQ : Option String) (s : String)
    (hs : jsNumericStr s = false) :
    getIndexBody user parentQ none st
      = listPage st.files (parentValOf parentQ) user._id 0
    ∧ getIndexBody user parentQ (some s) st
      = listPage st.files (parentValOf parentQ) user._id 0 := by
  have hn : jsToNum? s = none := jsToNum_none_of_nonnumeric hs
  constructor
  · unfold getIndexBody listPage matchingDocs DBClient.getFiles toEntry
    simp only [pageOffset]
  · unfold getIndexBody listPage matchingDocs DBClient.getFiles toEntry
    simp only [pageOffset, hn]

/-- C10 witness: over Alice's three root files, both an absent page and
the page string `"abc"` — whose JS coercion is NaN — are served the
first window. -/
theorem c10_nonnumeric_page_first_window_witness :
    getIndexBody uAlice none none stL
      = listPage stL.files (parentValOf none) uAlice._id 0
    ∧ getIndexBody uAlice none (some "abc") stL
      = listPage stL.files (parentValOf none) uAlice._id 0 := by
  exact c10_nonnumeric_page_first_window stL uAlice none "abc" (by decide)
